import Mathlib

/-!
Verification of the configuration-resolution and validation engine of FORD
(`ford/__init__.py`): option merging with precedence, type coercion, path
canonicalization, cross-field validation (source/output containment, docmark
uniqueness), preprocessor capability probing, and license resolution.

Python values flowing through the option dictionary are modelled by `Value`;
fallible operations return `Except`/`Option` or a dedicated result type.
-/

namespace Ford

/-- A value held in the option dictionary (`proj_data`): Python `None`,
a string, a list of strings, a boolean, or an integer. -/
inductive Value where
  | none
  | str (s : String)
  | list (l : List String)
  | bool (b : Bool)
  | int (n : Int)
deriving DecidableEq

/-- Python `str.lower` (character-wise, modelling the ASCII case used by
option values and license short-codes). -/
def lowerStr (s : String) : String :=
  String.mk (s.data.map Char.toLower)

/-- Modelled from the spec: `ford.utils.str_to_bool` (not under `src/`).
The supplied token must equal a recognized truthy/falsy token
(`"true"`/`"false"`, case-insensitively); anything else is an error (`Option.none`). -/
def str_to_bool (text : String) : Option Bool :=
  if lowerStr text = "true" then some true
  else if lowerStr text = "false" then some false
  else Option.none

/-- Outcome of `convert_to_bool`: a boolean, a `ValueError` naming the
offending option and the raw input, or the `IndexError` Python raises when
the supplied list is empty (`option[0]` out of range). -/
inductive BoolConv where
  | ok (b : Bool)
  | badOption (name : String) (raw : String)
  | indexError
deriving DecidableEq

/-- `convert_to_bool(name, option)`: reject a list of more than one value,
otherwise convert its single element via `str_to_bool`, raising a
`ValueError` that names the option and the raw input on failure. -/
def convert_to_bool (name : String) (option : List String) : BoolConv :=
  if 1 < option.length then
    .badOption name (String.intercalate ", " option)
  else
    match option with
    | [] => .indexError
    | x :: _ =>
      match str_to_bool x with
      | some b => .ok b
      | Option.none => .badOption name x

/-- Split a character list at every separator character satisfying `p`,
like Python `str.split(sep)` for a single-character separator: empty
pieces are kept. -/
def splitWhen (p : Char → Bool) : List Char → List (List Char)
  | [] => [[]]
  | c :: rest =>
    match splitWhen p rest with
    | [] => [[]]
    | cur :: parts => if p c then [] :: cur :: parts else (c :: cur) :: parts

/-- Split a string at every slash. -/
def splitSlash (s : String) : List String :=
  (splitWhen (fun c => c = '/') s.data).map String.mk

/-- Modelled from the spec: `ford.utils.split_path` (not under `src/`)
decomposes a path into its ordered sequence of path segments. -/
def split_path (p : String) : List String :=
  (splitSlash p).filter (fun s => s ≠ "")

/-- The containment walk from `initialize`: iterate over the output
directory's segments (`out_path`); break without error when the source
segment list is exhausted or on the first mismatch; discard the source
list's head on a match.  Returns `true` exactly when the Python
`for`/`else` clause fires, i.e. when the loop completes without a break,
which is the fatal "source inside output directory" diagnostic. -/
def containmentWalk : List String → List String → Bool
  | _, [] => true
  | projPath, directory :: rest =>
    if projPath = [] then false
    else if projPath.head? = some directory then containmentWalk projPath.tail rest
    else false

/-- The per-source-directory containment check: split both paths into
segments and run the walk. -/
def srcInOutput (projdir output_dir : String) : Bool :=
  containmentWalk (split_path projdir) (split_path output_dir)

/-- The docmark uniqueness validation: the six chained comparisons of
`initialize`, in source order.  Python's `a == b != ""` means
`a == b and b != ""`.  `some (n₁, n₂)` is the fatal diagnostic naming the
two colliding options (followed by `sys.exit(1)`); `Option.none` means the
check passes. -/
def marksError (docmark docmark_alt predocmark predocmark_alt : String) :
    Option (String × String) :=
  if docmark = predocmark ∧ predocmark ≠ "" then some ("docmark", "predocmark")
  else if docmark = docmark_alt ∧ docmark_alt ≠ "" then some ("docmark", "docmark_alt")
  else if docmark = predocmark_alt ∧ predocmark_alt ≠ "" then
    some ("docmark", "predocmark_alt")
  else if docmark_alt = predocmark ∧ predocmark ≠ "" then
    some ("docmark_alt", "predocmark")
  else if docmark_alt = predocmark_alt ∧ predocmark_alt ≠ "" then
    some ("docmark_alt", "predocmark_alt")
  else if predocmark = predocmark_alt ∧ predocmark_alt ≠ "" then
    some ("predocmark", "predocmark_alt")
  else Option.none

/-- `proj_data["extensions"] += [ext for ext in proj_data["fpp_extensions"]
if ext not in proj_data["extensions"]]` — the comprehension is evaluated
against the original `extensions` list before the extend. -/
def mergeExtensions (extensions fpp_extensions : List String) : List String :=
  extensions ++ fpp_extensions.filter (fun ext => ¬ extensions.contains ext)

/-- Coercion of a metadata-supplied value, dispatching on the runtime type
of the schema default exactly as the merge loop does:
`isinstance(default_type, bool)` → `convert_to_bool`;
`not isinstance(default_type, list)` → join the list of strings with a
newline separator; a list-kind default leaves the raw metadata list
verbatim. -/
def coerceMeta (name : String) (metaVal : List String) (default : Value) :
    Except String Value :=
  match default with
  | .bool _ =>
    match convert_to_bool name metaVal with
    | .ok b => .ok (.bool b)
    | .badOption n r =>
      .error ("Could not convert option " ++ n ++ " to bool, got: " ++ r)
    | .indexError => .error "IndexError"
  | .list _ => .ok (.list metaVal)
  | _ => .ok (.str (String.intercalate "\n" metaVal))

/-- Point update of a string-keyed partial map, modelling
`proj_data[option] = value`. -/
def setKey (pd : String → Option Value) (n : String) (v : Value) :
    String → Option Value :=
  fun m => if m = n then some v else pd m

/-- The merge loop of `initialize`, iterating over the defaults schema in
order.  `args n = some v` models `hasattr(args, n) and getattr(args, n) is
not None` (presence of an explicit command-line value — presence, not
truthiness); `meta` is `md.Meta` restricted to lists of strings.  A failed
boolean coercion propagates as an error (uncaught `ValueError`). -/
def mergeLoop (args : String → Option Value) (meta : String → Option (List String)) :
    List (String × Value) → (String → Option Value) →
    Except String (String → Option Value)
  | [], pd => .ok pd
  | (n, d) :: rest, pd =>
    match args n with
    | some v => mergeLoop args meta rest (setKey pd n v)
    | Option.none =>
      match meta n with
      | some mv =>
        match coerceMeta n mv d with
        | .ok c => mergeLoop args meta rest (setKey pd n c)
        | .error e => .error e
      | Option.none => mergeLoop args meta rest (setKey pd n d)

/-- The initial `proj_data`: the document metadata, every present key bound
to its list of strings. -/
def initialData (meta : String → Option (List String)) : String → Option Value :=
  fun n => (meta n).map Value.list

/-- The resolved configuration after the merge loop, starting from the
document metadata. -/
def mergeConfig (args : String → Option Value)
    (meta : String → Option (List String)) (defaults : List (String × Value)) :
    Except String (String → Option Value) :=
  mergeLoop args meta defaults (initialData meta)

set_option maxHeartbeats 1000000 in
/-- The defaults schema of `initialize`, in source order.  `ncpus` and
`year` are computed at run time (`multiprocessing.cpu_count()`,
`date.today().year`) and are parameters of the model. -/
def defaults (ncpus : String) (year : Int) : List (String × Value) :=
  [ ("css", .none)
  , ("author", .none)
  , ("author_description", .none)
  , ("author_pic", .none)
  , ("summary", .none)
  , ("github", .none)
  , ("gitlab", .none)
  , ("bitbucket", .none)
  , ("facebook", .none)
  , ("twitter", .none)
  , ("google_plus", .none)
  , ("linkedin", .none)
  , ("email", .none)
  , ("website", .none)
  , ("project_github", .none)
  , ("project_gitlab", .none)
  , ("project_bitbucket", .none)
  , ("project_website", .none)
  , ("project_download", .none)
  , ("project_sourceforge", .none)
  , ("version", .none)
  , ("media_dir", .none)
  , ("page_dir", .none)
  , ("privacy_policy_url", .none)
  , ("terms_of_service_url", .none)
  , ("graph_dir", .none)
  , ("gitter_sidecar", .none)
  , ("mathjax_config", .none)
  , ("revision", .none)
  , ("src_dir", .list ["./src"])
  , ("extensions", .list ["f90", "f95", "f03", "f08", "f15"])
  , ("fpp_extensions", .list ["F90", "F95", "F03", "F08", "F15", "F", "FOR"])
  , ("fixed_extensions", .list ["f", "for", "F", "FOR"])
  , ("output_dir", .str "./doc")
  , ("project", .str "Fortran Program")
  , ("project_url", .str "")
  , ("display", .list ["public", "protected"])
  , ("hide_undoc", .bool false)
  , ("year", .int year)
  , ("exclude", .list [])
  , ("exclude_dir", .list [])
  , ("copy_subdir", .list [])
  , ("external", .list [])
  , ("externalize", .bool false)
  , ("docmark", .str "!")
  , ("docmark_alt", .str "*")
  , ("predocmark", .str ">")
  , ("predocmark_alt", .str "|")
  , ("alias", .list [])
  , ("favicon", .str "default-icon")
  , ("extra_vartypes", .list [])
  , ("incl_src", .bool true)
  , ("source", .bool false)
  , ("macro", .list [])
  , ("include", .list [])
  , ("preprocess", .bool true)
  , ("preprocessor", .str "")
  , ("proc_internals", .bool false)
  , ("warn", .bool false)
  , ("force", .bool false)
  , ("quiet", .bool false)
  , ("search", .bool true)
  , ("lower", .bool false)
  , ("sort", .str "src")
  , ("extra_mods", .list [])
  , ("dbg", .bool true)
  , ("graph", .bool false)
  , ("graph_maxdepth", .str "10000")
  , ("graph_maxnodes", .str "1000000000")
  , ("license", .str "")
  , ("doc_license", .str "")
  , ("extra_filetypes", .list [])
  , ("creation_date", .str "%Y-%m-%dT%H:%M:%S.%f%z")
  , ("print_creation_date", .bool false)
  , ("coloured_edges", .bool false)
  , ("parallel", .str ncpus)
  , ("fixed_length_limit", .bool true)
  , ("max_frontpage_items", .int 10)
  , ("encoding", .str "utf-8")
  ]

/-- A word character for environment-variable names (regex `\w`). -/
def isWordChar (c : Char) : Bool :=
  c.isAlphanum ∨ c = '_'

/-- Modelled from the spec: the scanning core of environment-variable
expansion (`os.path.expandvars` boundary).  `$NAME` and `$\x7bNAME\x7d`
references whose name is bound in `env` are replaced by their value
(substituted text is not rescanned); unset or malformed references are left
in place.  Each step consumes at least one character, so fuel equal to the
input length is sufficient. -/
def expandvarsAux (env : String → Option String) : Nat → List Char → List Char
  | 0, l => l
  | _, [] => []
  | fuel + 1, c :: rest =>
    if c = '$' then
      match rest with
      | '\x7b' :: rest2 =>
        let name := rest2.takeWhile (fun d => d ≠ '\x7d')
        match rest2.dropWhile (fun d => d ≠ '\x7d') with
        | '\x7d' :: tail =>
          (match env (String.mk name) with
           | some v => v.data ++ expandvarsAux env fuel tail
           | Option.none =>
             '$' :: '\x7b' :: (name ++ '\x7d' :: expandvarsAux env fuel tail))
        | _ => '$' :: '\x7b' :: expandvarsAux env fuel rest2
      | _ =>
        let name := rest.takeWhile isWordChar
        if name = [] then '$' :: expandvarsAux env fuel rest
        else
          match env (String.mk name) with
          | some v => v.data ++ expandvarsAux env fuel (rest.dropWhile isWordChar)
          | Option.none =>
            '$' :: (name ++ expandvarsAux env fuel (rest.dropWhile isWordChar))
    else c :: expandvarsAux env fuel rest

/-- Modelled from the spec: environment-variable expansion
(`os.path.expandvars` boundary).  A path containing no dollar sign is
returned unchanged. -/
def expandvars (env : String → Option String) (path : String) : String :=
  if path.data.contains '$' then
    String.mk (expandvarsAux env path.data.length path.data)
  else path

/-- Modelled from the spec: home-directory expansion (`os.path.expanduser`
boundary).  A path not beginning with a tilde is returned unchanged; a
leading bare tilde is replaced by the home directory; an unknown `~user`
form is left unchanged. -/
def expanduser (home : String) (path : String) : String :=
  match path.data with
  | ['~'] => home
  | '~' :: '/' :: rest => home ++ String.mk ('/' :: rest)
  | _ => path

/-- Modelled from the spec: `os.path.join` (POSIX, two arguments): an
absolute second argument discards the first; otherwise the two are joined
with a separator unless the first is empty or already ends in one. -/
def joinPath (a b : String) : String :=
  match b.data with
  | '/' :: _ => b
  | _ =>
    if a = "" ∨ a.data.getLast? = some '/' then a ++ b
    else a ++ "/" ++ b

/-- Modelled from the spec: `os.path.normpath` (POSIX): collapse `.`,
empty and `..` segments, preserving one or exactly two leading slashes. -/
def normpath (path : String) : String :=
  if path = "" then "."
  else
    let initialSlashes : Nat :=
      match path.data with
      | '/' :: '/' :: '/' :: _ => 1
      | '/' :: '/' :: _ => 2
      | '/' :: _ => 1
      | _ => 0
    let comps := splitSlash path
    let newComps := comps.foldl
      (fun acc comp =>
        if comp = "" ∨ comp = "." then acc
        else if comp ≠ ".." ∨ (initialSlashes = 0 ∧ acc = []) ∨
            acc.getLast? = some ".." then
          acc ++ [comp]
        else if acc ≠ [] then acc.dropLast
        else acc)
      []
    let joined := String.mk (List.replicate initialSlashes '/') ++
      String.intercalate "/" newComps
    if joined = "" then "." else joined

/-- Path resolution as performed by `initialize` on every path-typed
option: expand environment variables, expand a home-directory shorthand,
join against `base_dir`, then normalize. -/
def resolvePath (env : String → Option String) (home base p : String) : String :=
  normpath (joinPath base (expanduser home (expandvars env p)))

/-- The built-in default preprocessor command of `initialize`. -/
def defaultPreprocessor : List String :=
  ["cpp", "-traditional-cpp", "-E", "-D__GFORTRAN__"]

/-- Python `str.split()` with no argument: split on runs of whitespace,
dropping empty pieces. -/
def pySplit (s : String) : List String :=
  ((splitWhen Char.isWhitespace s.data).map String.mk).filter (fun t => t ≠ "")

/-- Result of the preprocessor-handling block: the final `preprocess` and
`preprocessor` entries of `proj_data`, the warning lines printed, and the
command handed to the capability probe (if any).  There is no fatal
outcome: the block always returns. -/
structure PreprocOutcome where
  preprocess : Value
  preprocessor : Value
  warnings : List String
  probed : Option (List String)
deriving DecidableEq

/-- The preprocessor command resolved by `initialize`: the user-supplied
command tokenized on whitespace if non-empty (truthy), the built-in `cpp`
default otherwise. -/
def preprocCommand (preprocessorOpt : String) : List String :=
  if preprocessorOpt ≠ "" then pySplit preprocessorOpt else defaultPreprocessor

/-- The preprocessor-handling block of `initialize`.  `preprocess` is the
truthiness of `proj_data["preprocess"]`; `preprocessorOpt` is
`proj_data["preprocessor"]` (a string after the merge).  `spawn` models
`subprocess.Popen(...).communicate()` fed empty standard input: `.error ex`
is an `OSError` raised at spawn time, `.ok code` a successfully started
process that exited with status `code`. -/
def handlePreprocessor (preprocess : Bool) (preprocessorOpt : String)
    (spawn : List String → Except String Int) : PreprocOutcome :=
  if preprocess then
    let preprocessor := preprocCommand preprocessorOpt
    match spawn preprocessor with
    | .error ex =>
      { preprocess := .str "false"
      , preprocessor := .str preprocessorOpt
      , warnings :=
          [ "Warning: Testing preprocessor failed"
          , "  Preprocessor command: " ++ String.intercalate " " preprocessor
          , "  Exception: " ++ ex
          , "  -> Preprocessing turned off" ]
      , probed := some preprocessor }
    | .ok _ =>
      { preprocess := .str "true"
      , preprocessor := .list preprocessor
      , warnings := []
      , probed := some preprocessor }
  else
    { preprocess := .bool false
    , preprocessor := .str preprocessorOpt
    , warnings := []
    , probed := Option.none }

/-- The static license table `LICENSES`, mapping short-codes to canonical
markup, including the empty-string entry meaning no license. -/
def LICENSES : List (String × String) :=
  [ ("by",
     "<a rel=\"license\" href=\"http://creativecommons.org/licenses/by/4.0/\"><img alt=\"Creative Commons License\" style=\"border-width:0\" src=\"https://i.creativecommons.org/l/by/4.0/80x15.png\" /></a>")
  , ("by-nd",
     "<a rel=\"license\" href=\"http://creativecommons.org/licenses/by-nd/4.0/\"><img alt=\"Creative Commons License\" style=\"border-width:0\" src=\"https://i.creativecommons.org/l/by-nd/4.0/80x15.png\" /></a>")
  , ("by-sa",
     "<a rel=\"license\" href=\"http://creativecommons.org/licenses/by-sa/4.0/\"><img alt=\"Creative Commons License\" style=\"border-width:0\" src=\"https://i.creativecommons.org/l/by-sa/4.0/80x15.png\" /></a>")
  , ("by-nc",
     "<a rel=\"license\" href=\"http://creativecommons.org/licenses/by-nc/4.0/\"><img alt=\"Creative Commons License\" style=\"border-width:0\" src=\"https://i.creativecommons.org/l/by-nc/4.0/80x15.png\" /></a>")
  , ("by-nc-nd",
     "<a rel=\"license\" href=\"http://creativecommons.org/licenses/by-nc-nd/4.0/\"><img alt=\"Creative Commons License\" style=\"border-width:0\" src=\"https://i.creativecommons.org/l/by-nc-nd/4.0/80x15.png\" /></a>")
  , ("by-nc-sa",
     "<a rel=\"license\" href=\"http://creativecommons.org/licenses/by-nc-sa/4.0/\"><img alt=\"Creative Commons License\" style=\"border-width:0\" src=\"https://i.creativecommons.org/l/by-nc-sa/4.0/80x15.png\" /></a>")
  , ("gfdl",
     "<a rel=\"license\" href=\"http://www.gnu.org/licenses/old-licenses/fdl-1.2.en.html\">GNU Free Documentation License</a>")
  , ("opl",
     "<a rel=\"license\" href=\"http://opencontent.org/openpub/\">Open Publication License</a>")
  , ("pdl",
     "<a rel=\"license\" href=\"http://www.openoffice.org/licenses/PDL.html\">Public Documentation License</a>")
  , ("bsd",
     "<a rel=\"license\" href=\"http://www.freebsd.org/copyright/freebsd-doc-license.html\">FreeBSD Documentation License</a>")
  , ("isc",
     "<a rel=\"license\" href=\"https://opensource.org/licenses/ISC\">ISC (Internet Systems Consortium) License</a>")
  , ("mit",
     "<a rel=\"license\" href=\"https://opensource.org/licenses/MIT\">MIT</a>")
  , ("", "")
  ]

/-- Dictionary lookup `LICENSES[key]` (keys are distinct, so `find?` agrees
with the Python dict). -/
def lookupLicense (key : String) : Option String :=
  (LICENSES.find? (fun kv => kv.1 = key)).map Prod.snd

/-- License resolution for one option: `LICENSES[value.lower()]` replaces
the value on success; the `KeyError` path keeps the original value verbatim
and prints a notice.  Returns the new value and whether a notice was
emitted; there is no fatal outcome. -/
def resolveLicense (value : String) : String × Bool :=
  match lookupLicense (lowerStr value) with
  | some markup => (markup, false)
  | Option.none => (value, true)

/-- The two license resolutions of `initialize`, applied independently to
the `license` and `doc_license` options. -/
def applyLicenses (license doc_license : String) : (String × Bool) × (String × Bool) :=
  (resolveLicense license, resolveLicense doc_license)

/-! ## Helper lemmas -/

/-- The containment walk fires exactly when the output directory's segment
sequence is a prefix of the source directory's segment sequence. -/
theorem containmentWalk_iff (src out : List String) :
    containmentWalk src out = true ↔ out <+: src := by
  induction out generalizing src with
  | nil => simp [containmentWalk]
  | cons d rest ih =>
    cases src with
    | nil => simp [containmentWalk]
    | cons s st =>
      by_cases hsd : s = d
      · subst hsd
        simp [containmentWalk, ih, List.cons_prefix_cons]
      · simp [containmentWalk, hsd, List.cons_prefix_cons, Ne.symm hsd]

/-- Lookup in an association list with distinct keys: `find?` returns the
member pair. -/
theorem find?_lookup {l : List (String × String)} (hn : (l.map Prod.fst).Nodup)
    {k m : String} (h : (k, m) ∈ l) :
    l.find? (fun kv => kv.1 = k) = some (k, m) := by
  induction l with
  | nil => simp at h
  | cons a t ih =>
    simp only [List.map_cons, List.nodup_cons] at hn
    rcases List.mem_cons.mp h with heq | hmem
    · subst heq
      exact List.find?_cons_of_pos _ (by simp)
    · have hk : ¬ a.1 = k := by
        intro hak
        apply hn.1
        rw [hak]
        exact List.mem_map.mpr ⟨(k, m), hmem, rfl⟩
      rw [List.find?_cons_of_neg _ (by simp [hk])]
      exact ih hn.2 hmem

/-! ## Claims -/

/-- C1 (corrected): with project-document metadata `src_dir: ./lib` and
`output_dir: ./lib/doc`, the resolved source directory is an ancestor, not
a descendant, of the output directory, and the containment walk breaks out
(without the fatal diagnostic) as soon as the source segment list is
exhausted; the claimed fatal containment error and exit 1 do not occur.
Here both paths are resolved exactly as `initialize` does, against
`base_dir = "/base"` with no expandable references. -/
theorem c1_containment_scenario_counterexample :
    srcInOutput
      (resolvePath (fun _ => Option.none) "/home/user" "/base" "./lib")
      (resolvePath (fun _ => Option.none) "/home/user" "/base" "./lib/doc") = false := by
  decide

/-- C1 (amended): for metadata `src_dir: ./lib`, `output_dir: ./lib/doc`
the containment check passes (no fatal error, the run continues past it);
the fatal containment diagnostic fires for the reversed configuration
`src_dir: ./lib/doc`, `output_dir: ./lib`, where the source directory is
contained in the output directory. -/
theorem c1_containment_scenario_amended :
    srcInOutput
      (resolvePath (fun _ => Option.none) "/home/user" "/base" "./lib")
      (resolvePath (fun _ => Option.none) "/home/user" "/base" "./lib/doc") = false ∧
    srcInOutput
      (resolvePath (fun _ => Option.none) "/home/user" "/base" "./lib/doc")
      (resolvePath (fun _ => Option.none) "/home/user" "/base" "./lib") = true := by
  decide

/-- C2: a source directory literally equal to the output directory, or a
strict path-segment descendant of it, triggers the fatal containment
diagnostic (`srcInOutput = true`, followed by `sys.exit(1)` in
`initialize`); a source directory that merely shares a leading segment
prefix with the output directory without being contained in it passes the
check without error. -/
theorem containment_check_spec (srcStr outStr : String) :
    (srcStr = outStr → srcInOutput srcStr outStr = true) ∧
    ((∃ extra, extra ≠ [] ∧ split_path srcStr = split_path outStr ++ extra) →
      srcInOutput srcStr outStr = true) ∧
    (¬ split_path outStr <+: split_path srcStr → srcInOutput srcStr outStr = false) := by
  refine ⟨?_, ?_, ?_⟩
  · rintro rfl
    exact (containmentWalk_iff _ _).mpr (List.prefix_refl _)
  · rintro ⟨extra, -, heq⟩
    unfold srcInOutput
    rw [heq]
    exact (containmentWalk_iff _ _).mpr (List.prefix_append _ _)
  · intro h
    unfold srcInOutput
    cases hcw : containmentWalk (split_path srcStr) (split_path outStr)
    · rfl
    · exact absurd ((containmentWalk_iff _ _).mp hcw) h

/-- Witness for C2 at concrete paths: equal directories and a strict
descendant are fatal; a sibling sharing only a prefix of a segment name is
not. -/
theorem containment_check_spec_witness :
    srcInOutput "/base/out/src" "/base/out" = true ∧
    srcInOutput "/base/output" "/base/out" = false ∧
    srcInOutput "/base/out" "/base/out" = true :=
  ⟨(containment_check_spec "/base/out/src" "/base/out").2.1
      ⟨["src"], by decide, by decide⟩,
   (containment_check_spec "/base/output" "/base/out").2.2 (by decide),
   (containment_check_spec "/base/out" "/base/out").1 rfl⟩

/-- C3: the docmark validation is fatal (a diagnostic naming two of
`docmark`, `docmark_alt`, `predocmark`, `predocmark_alt`, followed by
`sys.exit(1)`) if and only if some pair among the four mark options holds
the same non-empty value; all six pairwise combinations are covered, and a
pair sharing the empty string is exempt. -/
theorem marks_check_iff (docmark docmark_alt predocmark predocmark_alt : String) :
    (marksError docmark docmark_alt predocmark predocmark_alt).isSome = true ↔
      (docmark = predocmark ∧ predocmark ≠ "") ∨
      (docmark = docmark_alt ∧ docmark_alt ≠ "") ∨
      (docmark = predocmark_alt ∧ predocmark_alt ≠ "") ∨
      (docmark_alt = predocmark ∧ predocmark ≠ "") ∨
      (docmark_alt = predocmark_alt ∧ predocmark_alt ≠ "") ∨
      (predocmark = predocmark_alt ∧ predocmark_alt ≠ "") := by
  unfold marksError
  split_ifs <;> simp_all

/-- Witness for C3: `docmark: !` colliding with `predocmark: !` is fatal;
the default marks pass; two empty marks are exempt. -/
theorem marks_check_iff_witness :
    (marksError "!" "*" "!" "|").isSome = true ∧
    (marksError "!" "*" ">" "|").isSome = false ∧
    (marksError "!" "" ">" "").isSome = false :=
  ⟨(marks_check_iff "!" "*" "!" "|").mpr (Or.inl ⟨rfl, by decide⟩),
   by
    cases hm : (marksError "!" "*" ">" "|").isSome
    · rfl
    · exact absurd ((marks_check_iff "!" "*" ">" "|").mp hm) (by decide),
   by
    cases hm : (marksError "!" "" ">" "").isSome
    · rfl
    · exact absurd ((marks_check_iff "!" "" ">" "").mp hm) (by decide)⟩

/-- C10 (counterexample): `fpp_extensions` may itself contain a duplicate;
the comprehension filters only against the original `extensions` list, so
the duplicated extension, although not already present, is appended twice —
not exactly once as claimed. -/
theorem extensions_merge_counterexample :
    ("x" ∈ (["x", "x"] : List String)) ∧ ("x" ∉ ([] : List String)) ∧
    (mergeExtensions [] ["x", "x"]).count "x" = 2 := by
  decide

/-- C10 (amended): every `fpp_extensions` element occurs in the merged
list; the original `extensions` entries are kept unchanged at the front;
and provided `fpp_extensions` has no duplicates, each fpp extension not
already present is appended exactly once, while extensions already present
are not appended again (their multiplicity is unchanged). -/
theorem extensions_merge_spec (extensions fpp_extensions : List String)
    (hnd : fpp_extensions.Nodup) :
    (∀ e ∈ fpp_extensions, e ∈ mergeExtensions extensions fpp_extensions) ∧
    ((mergeExtensions extensions fpp_extensions).take extensions.length = extensions) ∧
    (∀ e ∈ fpp_extensions, e ∉ extensions →
      (mergeExtensions extensions fpp_extensions).count e = 1) ∧
    (∀ e ∈ extensions,
      (mergeExtensions extensions fpp_extensions).count e = extensions.count e) := by
  refine ⟨?_, ?_, ?_, ?_⟩
  · intro e he
    by_cases hmem : e ∈ extensions
    · exact List.mem_append_left _ hmem
    · refine List.mem_append_right _ ?_
      simp [List.mem_filter, he, hmem]
  · exact List.take_left extensions _
  · intro e he hnotin
    rw [mergeExtensions, List.count_append, List.count_eq_zero_of_not_mem hnotin]
    have hcf : (List.filter (fun ext => ¬ extensions.contains ext)
        fpp_extensions).count e = fpp_extensions.count e := by
      apply List.count_filter
      simp [hnotin]
    rw [hcf, List.count_eq_one_of_mem hnd he]
  · intro e he
    rw [mergeExtensions, List.count_append]
    have : e ∉ List.filter (fun ext => ¬ extensions.contains ext) fpp_extensions := by
      simp [List.mem_filter, he]
    rw [List.count_eq_zero_of_not_mem this]
    omega

/-- C4 (counterexample): an empty value list is neither a list of more
than one element nor a list whose single element is unrecognized, so the
claim requires the corresponding boolean to be returned; instead the code
raises Python's anonymous `IndexError` (from `option[0]`), which is
neither the naming error nor a boolean. -/
theorem convert_to_bool_empty_counterexample :
    convert_to_bool "warn" [] = .indexError ∧
    (∀ raw, BoolConv.indexError ≠ .badOption "warn" raw) ∧
    (∀ b, BoolConv.indexError ≠ .ok b) :=
  ⟨rfl, fun _ h => BoolConv.noConfusion h, fun _ h => BoolConv.noConfusion h⟩

/-- C4 (amended): `convert_to_bool(name, option)` yields the error that
names the offending option and the raw input exactly when the value list
has more than one element or its single element is not a recognized
true/false token; a single recognized token yields the corresponding
boolean; an empty list instead raises Python's anonymous `IndexError`
(which names nothing). -/
theorem convert_to_bool_spec (name : String) (option : List String) :
    ((∃ raw, convert_to_bool name option = .badOption name raw) ↔
      1 < option.length ∨ ∃ x, option = [x] ∧ str_to_bool x = Option.none) ∧
    (∀ x b, option = [x] → str_to_bool x = some b →
      convert_to_bool name option = .ok b) ∧
    (option = [] → convert_to_bool name option = .indexError) := by
  refine ⟨?_, ?_, ?_⟩
  · match option with
    | [] => simp [convert_to_bool]
    | [x] =>
      cases h : str_to_bool x <;> simp [convert_to_bool, h]
    | x :: y :: rest =>
      simp only [convert_to_bool, List.length_cons]
      constructor
      · intro
        left
        omega
      · intro
        exact ⟨String.intercalate ", " (x :: y :: rest), by simp⟩
  · rintro x b rfl hb
    simp [convert_to_bool, hb]
  · rintro rfl
    rfl

/-- Witness for C4: the end-to-end `warn: maybe` scenario raises the bad
boolean diagnostic; `warn: true` converts to the boolean `true`. -/
theorem convert_to_bool_spec_witness :
    convert_to_bool "warn" ["true"] = .ok true ∧
    (∃ raw, convert_to_bool "warn" ["maybe"] = .badOption "warn" raw) :=
  ⟨(convert_to_bool_spec "warn" ["true"]).2.1 "true" true rfl (by decide),
   (convert_to_bool_spec "warn" ["maybe"]).1.mpr (Or.inr ⟨"maybe", rfl, by decide⟩)⟩

/-- C7: for each of `license` and `doc_license` independently, a value
whose lower-casing is a key of the static `LICENSES` table (which includes
the empty-string entry) is replaced by that table's canonical markup with
no notice; any other value is retained verbatim with a non-fatal notice.
Both outcomes return normally — license resolution never terminates the
run. -/
theorem license_resolution_spec (license doc_license : String) :
    (∀ markup, (lowerStr license, markup) ∈ LICENSES →
      (applyLicenses license doc_license).1 = (markup, false)) ∧
    (lowerStr license ∉ LICENSES.map Prod.fst →
      (applyLicenses license doc_license).1 = (license, true)) ∧
    (∀ markup, (lowerStr doc_license, markup) ∈ LICENSES →
      (applyLicenses license doc_license).2 = (markup, false)) ∧
    (lowerStr doc_license ∉ LICENSES.map Prod.fst →
      (applyLicenses license doc_license).2 = (doc_license, true)) ∧
    ("", "") ∈ LICENSES := by
  have hnod : (LICENSES.map Prod.fst).Nodup := by decide
  have hnone : ∀ v : String, v ∉ LICENSES.map Prod.fst →
      LICENSES.find? (fun kv => kv.1 = v) = Option.none := by
    intro v hv
    refine List.find?_eq_none.mpr (fun kv hkv => ?_)
    simp only [decide_eq_true_eq]
    intro hk
    exact hv (hk ▸ List.mem_map.mpr ⟨kv, hkv, rfl⟩)
  refine ⟨?_, ?_, ?_, ?_, by decide⟩
  · intro markup hm
    simp [applyLicenses, resolveLicense, lookupLicense, find?_lookup hnod hm]
  · intro hv
    simp [applyLicenses, resolveLicense, lookupLicense, hnone _ hv]
  · intro markup hm
    simp [applyLicenses, resolveLicense, lookupLicense, find?_lookup hnod hm]
  · intro hv
    simp [applyLicenses, resolveLicense, lookupLicense, hnone _ hv]

/-- Witness for C7: the known short-code `MIT` (case-insensitively)
resolves to its canonical markup; the unrecognized `proprietary` is kept
verbatim with a notice. -/
theorem license_resolution_spec_witness :
    (applyLicenses "MIT" "proprietary").1 =
      ("<a rel=\"license\" href=\"https://opensource.org/licenses/MIT\">MIT</a>",
        false) ∧
    (applyLicenses "MIT" "proprietary").2 = ("proprietary", true) :=
  ⟨(license_resolution_spec "MIT" "proprietary").1 _ (by decide),
   (license_resolution_spec "MIT" "proprietary").2.2.2.1 (by decide)⟩

/-- C9: path resolution (environment-variable expansion, then
home-directory expansion, then joining against `base_dir`, then
normalization) is idempotent: on a path that is already absolute,
normalized and free of expandable references it is the identity, so
applying it twice equals applying it once. -/
theorem path_resolution_idempotent (env : String → Option String)
    (home base p : String)
    (habs : p.data.head? = some '/')
    (hvar : p.data.contains '$' = false)
    (hnorm : normpath p = p) :
    resolvePath env home base p = p ∧
    resolvePath env home base (resolvePath env home base p) = p := by
  obtain ⟨t, ht⟩ : ∃ t, p.data = '/' :: t := by
    cases hd : p.data with
    | nil => simp [hd] at habs
    | cons c rest =>
      rw [hd] at habs
      simp only [List.head?_cons, Option.some.injEq] at habs
      exact ⟨rest, by rw [habs]⟩
  have h1 : expandvars env p = p := by
    unfold expandvars
    rw [hvar]
    simp
  have h2 : expanduser home p = p := by
    unfold expanduser
    rw [ht]
    split
    · simp_all
    · simp_all
    · rfl
  have h3 : joinPath base p = p := by
    unfold joinPath
    rw [ht]
    rfl
  have hres : resolvePath env home base p = p := by
    unfold resolvePath
    rw [h1, h2, h3, hnorm]
  refine ⟨hres, ?_⟩
  rw [hres]
  exact hres

/-- Witness for C9 at the canonical absolute path `/a/b`. -/
theorem path_resolution_idempotent_witness :
    resolvePath (fun _ => Option.none) "/home/user" "/base" "/a/b" = "/a/b" ∧
    resolvePath (fun _ => Option.none) "/home/user" "/base"
      (resolvePath (fun _ => Option.none) "/home/user" "/base" "/a/b") = "/a/b" :=
  path_resolution_idempotent (fun _ => Option.none) "/home/user" "/base" "/a/b"
    (by decide) (by decide) (by decide)

/-- Witness for C10 (amended) at the default extension lists of the schema:
fixed-form fpp extensions are appended once, the already-present free-form
ones are untouched. -/
theorem extensions_merge_spec_witness :
    ("FOR" ∈ mergeExtensions ["f90", "f95", "f03", "f08", "f15"]
        ["F90", "F95", "F03", "F08", "F15", "F", "FOR"]) ∧
    (mergeExtensions ["f90", "f95", "f03", "f08", "f15"]
        ["F90", "F95", "F03", "F08", "F15", "F", "FOR"]).count "F90" = 1 :=
  ⟨(extensions_merge_spec ["f90", "f95", "f03", "f08", "f15"]
      ["F90", "F95", "F03", "F08", "F15", "F", "FOR"] (by decide)).1 "FOR" (by decide),
   (extensions_merge_spec ["f90", "f95", "f03", "f08", "f15"]
      ["F90", "F95", "F03", "F08", "F15", "F", "FOR"] (by decide)).2.2.1 "F90"
      (by decide) (by decide)⟩

/-- C6: when preprocessing is requested, the capability probe spawns
exactly the resolved command (the user command tokenized on whitespace, or
the built-in `cpp` default); a spawn-time `OSError` yields a warning
identifying the command and the error, disables preprocessing, and the run
continues (the block always returns — never fatal); a successful spawn
enables preprocessing and retains the token list, regardless of the probed
process's exit status. -/
theorem preprocessor_probe_spec (preprocessorOpt : String)
    (spawn : List String → Except String Int) :
    ((handlePreprocessor true preprocessorOpt spawn).probed =
      some (preprocCommand preprocessorOpt)) ∧
    (∀ ex, spawn (preprocCommand preprocessorOpt) = .error ex →
      handlePreprocessor true preprocessorOpt spawn =
        { preprocess := .str "false"
        , preprocessor := .str preprocessorOpt
        , warnings :=
            [ "Warning: Testing preprocessor failed"
            , "  Preprocessor command: " ++
                String.intercalate " " (preprocCommand preprocessorOpt)
            , "  Exception: " ++ ex
            , "  -> Preprocessing turned off" ]
        , probed := some (preprocCommand preprocessorOpt) }) ∧
    (∀ code, spawn (preprocCommand preprocessorOpt) = .ok code →
      handlePreprocessor true preprocessorOpt spawn =
        { preprocess := .str "true"
        , preprocessor := .list (preprocCommand preprocessorOpt)
        , warnings := []
        , probed := some (preprocCommand preprocessorOpt) }) := by
  refine ⟨?_, ?_, ?_⟩
  · unfold handlePreprocessor
    cases hs : spawn (preprocCommand preprocessorOpt) <;> simp [hs]
  · intro ex hex
    simp [handlePreprocessor, hex]
  · intro code hc
    simp [handlePreprocessor, hc]

/-- Witness for C6: an unresolvable command disables preprocessing with a
warning; a command that starts but exits nonzero still enables
preprocessing and retains its tokens. -/
theorem preprocessor_probe_spec_witness :
    (handlePreprocessor true "" (fun _ => .error "No such file or directory")).preprocess
        = .str "false" ∧
    (handlePreprocessor true "" (fun _ => .error "No such file or directory")).warnings
        ≠ [] ∧
    (handlePreprocessor true "frob -E -x" (fun _ => .ok 1)).preprocessor =
        .list ["frob", "-E", "-x"] := by
  have h1 := (preprocessor_probe_spec ""
    (fun _ => .error "No such file or directory")).2.1 "No such file or directory" rfl
  have h2 := (preprocessor_probe_spec "frob -E -x" (fun _ => .ok 1)).2.2 1 rfl
  refine ⟨by rw [h1], by rw [h1]; decide, by rw [h2]; decide⟩

/-- Positions not named by the processed schema entries are left untouched
by the merge loop. -/
theorem mergeLoop_apply_of_not_mem (args : String → Option Value)
    (meta : String → Option (List String)) :
    ∀ (l : List (String × Value)) (pd pd' : String → Option Value) (n : String),
      mergeLoop args meta l pd = .ok pd' → n ∉ l.map Prod.fst → pd' n = pd n := by
  intro l
  induction l with
  | nil =>
    intro pd pd' n h _
    injection h with h
    rw [← h]
  | cons hd tl ih =>
    intro pd pd' n h hn
    obtain ⟨m, d⟩ := hd
    simp only [List.map_cons, List.mem_cons, not_or] at hn
    obtain ⟨hn1, hn2⟩ := hn
    rw [mergeLoop] at h
    cases ha : args m with
    | some v =>
      rw [ha] at h
      rw [ih _ _ _ h hn2]
      simp [setKey, hn1]
    | none =>
      rw [ha] at h
      cases hm : meta m with
      | some mv =>
        rw [hm] at h
        dsimp only at h
        cases hc : coerceMeta m mv d with
        | ok c =>
          rw [hc] at h
          rw [ih _ _ _ h hn2]
          simp [setKey, hn1]
        | error e =>
          rw [hc] at h
          exact Except.noConfusion h
      | none =>
        rw [hm] at h
        rw [ih _ _ _ h hn2]
        simp [setKey, hn1]

/-- Each schema entry resolves by precedence through the merge loop:
explicit command-line value, else coerced metadata value, else the
default. -/
theorem mergeLoop_resolves (args : String → Option Value)
    (meta : String → Option (List String)) :
    ∀ (l : List (String × Value)) (pd pd' : String → Option Value),
      (l.map Prod.fst).Nodup →
      mergeLoop args meta l pd = .ok pd' →
      ∀ n d, (n, d) ∈ l →
        (∀ v, args n = some v → pd' n = some v) ∧
        (args n = Option.none → ∀ mv, meta n = some mv →
          ∃ c, coerceMeta n mv d = .ok c ∧ pd' n = some c) ∧
        (args n = Option.none → meta n = Option.none → pd' n = some d) := by
  intro l
  induction l with
  | nil =>
    intro pd pd' _ _ n d hnd
    simp at hnd
  | cons hd tl ih =>
    intro pd pd' hnod h n d hnd
    obtain ⟨m, d2⟩ := hd
    simp only [List.map_cons, List.nodup_cons] at hnod
    obtain ⟨hm_notin, hnod'⟩ := hnod
    rw [mergeLoop] at h
    rcases List.mem_cons.mp hnd with heq | hmem
    · injection heq with heqn heqd
      subst heqn
      subst heqd
      refine ⟨?_, ?_, ?_⟩
      · intro v hv
        rw [hv] at h
        rw [mergeLoop_apply_of_not_mem args meta tl _ pd' n h hm_notin]
        simp [setKey]
      · intro hnone mv hmv
        rw [hnone, hmv] at h
        dsimp only at h
        cases hc : coerceMeta n mv d with
        | ok c =>
          rw [hc] at h
          refine ⟨c, rfl, ?_⟩
          rw [mergeLoop_apply_of_not_mem args meta tl _ pd' n h hm_notin]
          simp [setKey]
        | error e =>
          rw [hc] at h
          exact Except.noConfusion h
      · intro hnone hmnone
        rw [hnone, hmnone] at h
        rw [mergeLoop_apply_of_not_mem args meta tl _ pd' n h hm_notin]
        simp [setKey]
    · cases ha : args m with
      | some v =>
        rw [ha] at h
        exact ih _ pd' hnod' h n d hmem
      | none =>
        rw [ha] at h
        cases hmm : meta m with
        | some mv =>
          rw [hmm] at h
          dsimp only at h
          cases hc : coerceMeta m mv d2 with
          | ok c =>
            rw [hc] at h
            exact ih _ pd' hnod' h n d hmem
          | error e =>
            rw [hc] at h
            exact Except.noConfusion h
        | none =>
          rw [hmm] at h
          exact ih _ pd' hnod' h n d hmem

/-- The option names of the defaults schema are pairwise distinct. -/
theorem defaults_names_nodup (ncpus : String) (year : Int) :
    ((defaults ncpus year).map Prod.fst).Nodup := by
  have h : (defaults ncpus year).map Prod.fst =
    [ "css", "author", "author_description", "author_pic", "summary", "github",
      "gitlab", "bitbucket", "facebook", "twitter", "google_plus", "linkedin",
      "email", "website", "project_github", "project_gitlab",
      "project_bitbucket", "project_website", "project_download",
      "project_sourceforge", "version", "media_dir", "page_dir",
      "privacy_policy_url", "terms_of_service_url", "graph_dir",
      "gitter_sidecar", "mathjax_config", "revision", "src_dir", "extensions",
      "fpp_extensions", "fixed_extensions", "output_dir", "project",
      "project_url", "display", "hide_undoc", "year", "exclude", "exclude_dir",
      "copy_subdir", "external", "externalize", "docmark", "docmark_alt",
      "predocmark", "predocmark_alt", "alias", "favicon", "extra_vartypes",
      "incl_src", "source", "macro", "include", "preprocess", "preprocessor",
      "proc_internals", "warn", "force", "quiet", "search", "lower", "sort",
      "extra_mods", "dbg", "graph", "graph_maxdepth", "graph_maxnodes",
      "license", "doc_license", "extra_filetypes", "creation_date",
      "print_creation_date", "coloured_edges", "parallel", "fixed_length_limit",
      "max_frontpage_items", "encoding" ] := rfl
  rw [h]
  decide

/-- C5: whenever the merge loop over the full defaults schema succeeds,
every schema name is present in the resolved configuration (never
missing), and its value follows the precedence: the command-line value
when one was explicitly supplied (presence, not truthiness — `args n =
some v` models `hasattr(args, n) and getattr(args, n) is not None`),
otherwise the coerced document-metadata value when the key is present,
otherwise the schema default. -/
theorem merge_precedence (args : String → Option Value)
    (meta : String → Option (List String)) (ncpus : String) (year : Int)
    (resolved : String → Option Value)
    (h : mergeConfig args meta (defaults ncpus year) = .ok resolved) :
    ∀ n d, (n, d) ∈ defaults ncpus year →
      (resolved n).isSome = true ∧
      (∀ v, args n = some v → resolved n = some v) ∧
      (args n = Option.none → ∀ mv, meta n = some mv →
        ∃ c, coerceMeta n mv d = .ok c ∧ resolved n = some c) ∧
      (args n = Option.none → meta n = Option.none → resolved n = some d) := by
  intro n d hnd
  have main := mergeLoop_resolves args meta (defaults ncpus year) (initialData meta)
    resolved (defaults_names_nodup ncpus year) h n d hnd
  refine ⟨?_, main.1, main.2.1, main.2.2⟩
  cases ha : args n with
  | some v =>
    rw [main.1 v ha]
    rfl
  | none =>
    cases hm : meta n with
    | some mv =>
      obtain ⟨c, _, hc⟩ := main.2.1 ha mv hm
      rw [hc]
      rfl
    | none =>
      rw [main.2.2 ha hm]
      rfl

/-- A concrete command line: the user explicitly passed `--quiet` (argparse
stores `True`; everything else stays `None`). -/
def cliArgs : String → Option Value :=
  fun n => if n = "quiet" then some (.bool true) else Option.none

/-- Concrete document metadata: a `project` line and a two-line `summary`. -/
def docMeta : String → Option (List String) :=
  fun n =>
    if n = "project" then some ["My Project"]
    else if n = "summary" then some ["line one", "line two"]
    else Option.none

/-- Witness for C5: on a concrete run the explicitly supplied command-line
`quiet` wins, the metadata `project` value wins over the schema default,
and the untouched `output_dir` falls back to its default. -/
theorem merge_precedence_witness :
    ∃ resolved,
      mergeConfig cliArgs docMeta (defaults "4" 2024) = .ok resolved ∧
      resolved "quiet" = some (.bool true) ∧
      resolved "project" = some (.str "My Project") ∧
      resolved "output_dir" = some (.str "./doc") := by
  have hok : (mergeConfig cliArgs docMeta (defaults "4" 2024)).isOk = true := rfl
  cases hr : mergeConfig cliArgs docMeta (defaults "4" 2024) with
  | error e =>
    rw [hr] at hok
    exact Bool.noConfusion hok
  | ok resolved =>
    refine ⟨resolved, rfl, ?_, ?_, ?_⟩
    · exact (merge_precedence cliArgs docMeta "4" 2024 resolved hr "quiet"
        (.bool false) (by decide)).2.1 (.bool true) rfl
    · obtain ⟨c, hc, hrr⟩ := (merge_precedence cliArgs docMeta "4" 2024 resolved hr
        "project" (.str "Fortran Program") (by decide)).2.2.1 rfl ["My Project"] rfl
      rw [show coerceMeta "project" ["My Project"] (Value.str "Fortran Program") =
        Except.ok (Value.str "My Project") from rfl] at hc
      injection hc with hcc
      rw [← hcc] at hrr
      exact hrr
    · exact (merge_precedence cliArgs docMeta "4" 2024 resolved hr "output_dir"
        (.str "./doc") (by decide)).2.2.2 rfl rfl

/-- C8: for every scalar-kind option (schema default neither a boolean nor
a list) whose value comes from document metadata, the metadata's list of
strings is joined with a newline separator into a single string, in
document order — also when the metadata supplies a single value. -/
theorem scalar_metadata_join (args : String → Option Value)
    (meta : String → Option (List String)) (ncpus : String) (year : Int)
    (resolved : String → Option Value)
    (h : mergeConfig args meta (defaults ncpus year) = .ok resolved) :
    ∀ n d, (n, d) ∈ defaults ncpus year →
      (∀ b, d ≠ .bool b) → (∀ l, d ≠ .list l) →
      args n = Option.none →
      ∀ mv, meta n = some mv →
        resolved n = some (.str (String.intercalate "\n" mv)) := by
  intro n d hnd hb hl ha mv hmv
  have main := mergeLoop_resolves args meta (defaults ncpus year) (initialData meta)
    resolved (defaults_names_nodup ncpus year) h n d hnd
  obtain ⟨c, hc, hr⟩ := main.2.1 ha mv hmv
  have hco : coerceMeta n mv d = .ok (.str (String.intercalate "\n" mv)) := by
    cases d with
    | bool b => exact absurd rfl (hb b)
    | list l => exact absurd rfl (hl l)
    | none => rfl
    | str s => rfl
    | int i => rfl
  rw [hco] at hc
  injection hc with hcc
  rw [← hcc] at hr
  exact hr

/-- Witness for C8: a two-line `summary` (default `None`, scalar kind) is
newline-joined; a single-line `project` (string default) is joined to
itself. -/
theorem scalar_metadata_join_witness :
    ∃ resolved,
      mergeConfig cliArgs docMeta (defaults "4" 2024) = .ok resolved ∧
      resolved "summary" =
        some (.str (String.intercalate "\n" ["line one", "line two"])) ∧
      resolved "project" =
        some (.str (String.intercalate "\n" ["My Project"])) := by
  have hok : (mergeConfig cliArgs docMeta (defaults "4" 2024)).isOk = true := rfl
  cases hr : mergeConfig cliArgs docMeta (defaults "4" 2024) with
  | error e =>
    rw [hr] at hok
    exact Bool.noConfusion hok
  | ok resolved =>
    refine ⟨resolved, rfl, ?_, ?_⟩
    · exact scalar_metadata_join cliArgs docMeta "4" 2024 resolved hr "summary"
        .none (by decide) (by intro b hb; cases hb) (by intro l hl; cases hl)
        rfl ["line one", "line two"] rfl
    · exact scalar_metadata_join cliArgs docMeta "4" 2024 resolved hr "project"
        (.str "Fortran Program") (by decide) (by intro b hb; cases hb)
        (by intro l hl; cases hl) rfl ["My Project"] rfl

end Ford
